import Mathlib

/-!
Verification development for the cloud-migration pipeline runner
(`run_migration.py`).  The command-line entry point `main` is embedded
directly from the source.  The `CloudMigrationPipeline` class it drives
(module `src.migration_pipeline`) is not part of the repository snapshot,
so its operations are modelled from the specification: each pipeline
method's outcome is drawn from an explicit environment `PipelineEnv`,
and every run additionally records a trace of the pipeline operations it
invoked, so that frame properties (what is never called) are provable.
-/

/-- One entry of the configured data-source list.  The runner accesses a
data source only through its `table` key (`s['table']`). -/
structure DataSourceSpec where
  table : String
deriving DecidableEq, Repr

/-- A per-table validation outcome as the runner sees it: a dictionary
carrying the table name and, possibly, a `validation_passed` key.  The
runner reads exactly these two keys (`r.get('validation_passed', False)`
and `r['table_name']`); a missing `validation_passed` key is modelled by
`none`. -/
structure ValidationResult where
  table_name : String
  validation_passed : Option Bool
deriving DecidableEq, Repr

/-- Terminal status of a per-table migration attempt. -/
inductive MigStatus where
  | succeeded
  | failed
  | skipped
deriving DecidableEq, Repr

/-- One per-table migration record: table identifier, status, rows
migrated, and error detail present on failure. -/
structure MigrationResult where
  table : String
  status : MigStatus
  rows_migrated : Nat
  error_detail : Option String
deriving DecidableEq, Repr

/-- Observable pipeline operations, recorded as a trace so that frame
claims (an operation is never invoked in some mode) can be stated. -/
inductive Event where
  | connectSource
  | validateCall (table : String)
  | extract (table : String)
  | transform (table : String)
  | load (table : String)
  | runMigrationCall
deriving DecidableEq, Repr

/-- Environment of outcomes for one run: what each pipeline operation
would return (or raise) when invoked.  `constructResult` is the result of
`CloudMigrationPipeline(config)` together with its resolved
`data_sources` list (construction may raise, e.g. a config error);
`connectOk` is the boolean returned by `connect_to_source_db` (the spec
has it return false rather than raise on failure); `validationOutcome t`
is the `validation_passed` entry of the validation dictionary for table
`t` (`none` models a dictionary missing that key); `extractResult`,
`transformResult` and `loadResult` are the per-table stage outcomes,
`Except.error` modelling a raised exception. -/
structure PipelineEnv where
  constructResult : Except String (List DataSourceSpec)
  connectOk : Bool
  validationOutcome : String → Option Bool
  extractResult : String → Except String Unit
  transformResult : String → Except String Unit
  loadResult : String → Except String Nat

/-- Modelled from the spec: `connectSource() -> bool` establishes the
source handle and returns false (does not raise) on failure.  The method
body is not in the snapshot; its boolean outcome comes from the
environment. -/
def connect_to_source_db (env : PipelineEnv) : Bool :=
  env.connectOk

/-- Modelled from the spec: `validate(tableName) -> ValidationResult`
runs the Validator for one table without triggering extraction or load,
and never raises (validation failure is data).  The verdict dictionary
carries the table identifier and whatever `validation_passed` entry the
Validator produced. -/
def validate_migration (env : PipelineEnv) (t : String) : ValidationResult :=
  { table_name := t, validation_passed := env.validationOutcome t }

/-- Modelled from the spec: the per-table extract → transform → load
sequence inside `runMigration` (the `CloudMigrationPipeline` body is not
in the snapshot).  A stage failure is caught and becomes a `failed`
MigrationResult carrying the error detail; later stages of that table
are not invoked.  Returns the record together with the stage events that
actually ran. -/
def migrateTable (env : PipelineEnv) (s : DataSourceSpec) :
    MigrationResult × List Event :=
  match env.extractResult s.table with
  | Except.error e =>
      (⟨s.table, MigStatus.failed, 0, some e⟩, [Event.extract s.table])
  | Except.ok _ =>
    match env.transformResult s.table with
    | Except.error e =>
        (⟨s.table, MigStatus.failed, 0, some e⟩,
         [Event.extract s.table, Event.transform s.table])
    | Except.ok _ =>
      match env.loadResult s.table with
      | Except.error e =>
          (⟨s.table, MigStatus.failed, 0, some e⟩,
           [Event.extract s.table, Event.transform s.table,
            Event.load s.table])
      | Except.ok n =>
          (⟨s.table, MigStatus.succeeded, n, none⟩,
           [Event.extract s.table, Event.transform s.table,
            Event.load s.table])

/-- Whether one table counts as fully successful for the aggregate:
its migration record succeeded and its validation passed. -/
def tableOk (env : PipelineEnv) (s : DataSourceSpec) : Bool :=
  (migrateTable env s).1.status == MigStatus.succeeded
    && ((validate_migration env s.table).validation_passed.getD false)

/-- Modelled from the spec: `runMigration() -> bool` connects to the
source (aborting with false, and zero per-table results, if that fails),
then for each active data source in config-declared order extracts,
transforms, loads, and validates regardless of load outcome; the overall
boolean is the logical AND over tables of "succeeded and
validation_passed".  Returns the boolean, the per-table records, and the
event trace. -/
def run_migration (env : PipelineEnv) (sources : List DataSourceSpec) :
    Bool × List MigrationResult × List Event :=
  if connect_to_source_db env then
    (sources.all (fun s => tableOk env s),
     sources.map (fun s => (migrateTable env s).1),
     Event.connectSource ::
       sources.foldr
         (fun s acc => (migrateTable env s).2
           ++ [Event.validateCall s.table] ++ acc) [])
  else
    (false, [], [Event.connectSource])

/-- Command-line arguments relevant to `main`: the `--validate-only`
flag and the optional `--tables` list (`none` when the flag is absent;
argparse's `nargs` setting makes a provided list nonempty, but the model
keeps Python's truthiness test, under which an empty list also skips the
filter). -/
structure Args where
  validate_only : Bool
  tables : Option (List String)
deriving DecidableEq, Repr

/-- The table filter step of `main`: when `args.tables` is truthy the
data-source list is narrowed by the comprehension
`[s for s in all_sources if s['table'] in args.tables]`; otherwise it is
left untouched. -/
def filterSources (tables : Option (List String))
    (srcs : List DataSourceSpec) : List DataSourceSpec :=
  match tables with
  | none => srcs
  | some ts =>
    if ts.isEmpty then srcs
    else srcs.filter (fun s => ts.contains s.table)

/-- The active data-source list after construction and filtering. -/
def activeSources (args : Args) (srcs : List DataSourceSpec) :
    List DataSourceSpec :=
  filterSources args.tables srcs

/-- The failed-table listing computed in validate-only mode:
`[r['table_name'] for r in validation_results if not
r.get('validation_passed', False)]`. -/
def failedTables (vrs : List ValidationResult) : List String :=
  (vrs.filter (fun r => !(r.validation_passed.getD false))).map
    (fun r => r.table_name)

/-- Everything observable from one run of `main`: the returned exit
code, the trace of pipeline operations invoked, and the per-table
records accumulated before control returned. -/
structure RunOutcome where
  exit : Nat
  events : List Event
  migResults : List MigrationResult
  valResults : List ValidationResult
deriving DecidableEq, Repr

/-- The `main` function of `run_migration.py`: construct the pipeline
(any exception is caught by the top-level handler and mapped to 1),
filter the data sources when `--tables` was given, then either run
validate-only mode (connect gate returning 1 on failure, one
`validate_migration` call per active table, exit 0 iff every result's
`validation_passed` entry is truthy) or full migration mode (exit 0 iff
`run_migration` returned true). -/
def runMain (args : Args) (env : PipelineEnv) : RunOutcome :=
  match env.constructResult with
  | Except.error _ => ⟨1, [], [], []⟩
  | Except.ok all_sources =>
    let sources := filterSources args.tables all_sources
    if args.validate_only then
      if connect_to_source_db env then
        let vrs := sources.map (fun s => validate_migration env s.table)
        let success := vrs.all (fun r => r.validation_passed.getD false)
        ⟨if success then 0 else 1,
         Event.connectSource ::
           sources.map (fun s => Event.validateCall s.table),
         [], vrs⟩
      else
        ⟨1, [Event.connectSource], [], []⟩
    else
      let out := run_migration env sources
      ⟨if out.1 then 0 else 1,
       Event.runMigrationCall :: out.2.2, out.2.1, []⟩

/-! ### Concrete fixtures used by witnesses and counterexamples -/

/-- A sample data source. -/
def usersSpec : DataSourceSpec := ⟨"users"⟩

/-- A second sample data source. -/
def ordersSpec : DataSourceSpec := ⟨"orders"⟩

/-- An environment where everything succeeds. -/
def envGood : PipelineEnv where
  constructResult := Except.ok [usersSpec, ordersSpec]
  connectOk := true
  validationOutcome := fun _ => some true
  extractResult := fun _ => Except.ok ()
  transformResult := fun _ => Except.ok ()
  loadResult := fun _ => Except.ok 100

/-- An environment where the source connection cannot be established. -/
def envNoConnect : PipelineEnv where
  constructResult := Except.ok [usersSpec]
  connectOk := false
  validationOutcome := fun _ => some true
  extractResult := fun _ => Except.ok ()
  transformResult := fun _ => Except.ok ()
  loadResult := fun _ => Except.ok 0

/-- An environment where extraction of the `users` table raises. -/
def envExtractFail : PipelineEnv where
  constructResult := Except.ok [usersSpec, ordersSpec]
  connectOk := true
  validationOutcome := fun _ => some true
  extractResult := fun t =>
    if t == "users" then Except.error "boom" else Except.ok ()
  transformResult := fun _ => Except.ok ()
  loadResult := fun _ => Except.ok 100

/-- An environment whose validation dictionary for `users` lacks the
`validation_passed` key. -/
def envMissingKey : PipelineEnv where
  constructResult := Except.ok [usersSpec, ordersSpec]
  connectOk := true
  validationOutcome := fun t => if t == "users" then none else some true
  extractResult := fun _ => Except.ok ()
  transformResult := fun _ => Except.ok ()
  loadResult := fun _ => Except.ok 100

/-- An environment whose pipeline construction raises. -/
def envConstructFail : PipelineEnv where
  constructResult := Except.error "config error"
  connectOk := true
  validationOutcome := fun _ => some true
  extractResult := fun _ => Except.ok ()
  transformResult := fun _ => Except.ok ()
  loadResult := fun _ => Except.ok 0

/-! ### Helper lemmas -/

/-- A migration record keeps the table name of the spec it came from. -/
theorem migrateTable_table (env : PipelineEnv) (s : DataSourceSpec) :
    (migrateTable env s).1.table = s.table := by
  unfold migrateTable
  cases env.extractResult s.table with
  | error e => rfl
  | ok u =>
    cases env.transformResult s.table with
    | error e => rfl
    | ok u2 =>
      cases env.loadResult s.table with
      | error e => rfl
      | ok n => rfl

/-- Every exit code `runMain` can return is 0 or 1. -/
theorem runMain_exit_zero_or_one (args : Args) (env : PipelineEnv) :
    (runMain args env).exit = 0 ∨ (runMain args env).exit = 1 := by
  unfold runMain
  cases env.constructResult with
  | error e => right; rfl
  | ok srcs =>
    simp only []
    by_cases hv : args.validate_only
    · simp only [hv, if_true]
      by_cases hc : connect_to_source_db env
      · simp only [hc, if_true]
        by_cases hs :
            ((filterSources args.tables srcs).map
              (fun s => validate_migration env s.table)).all
              (fun r => r.validation_passed.getD false)
        · left; simp [hs]
        · right; simp [hs]
      · simp only [hc, if_false]
        right; rfl
    · simp only [hv, if_false]
      by_cases hr : (run_migration env (filterSources args.tables srcs)).1
      · left; simp [hr]
      · right; simp [hr]

/-- `all` over a mapped list, phrased without function composition. -/
theorem all_map_fun {α β : Type} (l : List α) (f : α → β) (p : β → Bool) :
    (l.map f).all p = l.all (fun x => p (f x)) := by
  induction l with
  | nil => rfl
  | cons a t ih => simp [ih]

/-! ### Claim theorems -/

/-- Claim C7: for every data-source list, the filter step with no table
names provided (the `--tables` flag absent, or an empty selection, both
falsy in the source's truthiness test) leaves the active data-source
list unchanged. -/
theorem filter_no_names_identity (srcs : List DataSourceSpec) :
    filterSources none srcs = srcs
    ∧ filterSources (some []) srcs = srcs :=
  ⟨rfl, rfl⟩

/-- Claim C3: for every loaded data-source list and every provided
(nonempty, as argparse guarantees) list of table names, the filter step
narrows the active list to exactly the members whose table is among the
provided names, preserving config-declared order (the result is a
sublist), keeping every config entry whose table was named, and an
absent provided name neither errors (the step is a total function) nor
changes the result. -/
theorem filter_step_intersection (ts : List String)
    (srcs : List DataSourceSpec) (h : ts ≠ []) :
    filterSources (some ts) srcs
        = srcs.filter (fun s => ts.contains s.table)
    ∧ List.Sublist (filterSources (some ts) srcs) srcs
    ∧ (∀ s ∈ filterSources (some ts) srcs, s.table ∈ ts)
    ∧ (∀ s ∈ srcs, s.table ∈ ts → s ∈ filterSources (some ts) srcs)
    ∧ ∀ name, name ∉ srcs.map (fun s => s.table) →
        filterSources (some (name :: ts)) srcs
          = filterSources (some ts) srcs := by
  have hne : ts.isEmpty = false := by
    cases ts with
    | nil => exact absurd rfl h
    | cons a t => rfl
  have heq : filterSources (some ts) srcs
      = srcs.filter (fun s => ts.contains s.table) := by
    simp [filterSources, hne]
  refine ⟨heq, ?_, ?_, ?_, ?_⟩
  · rw [heq]; exact List.filter_sublist srcs
  · intro s hs
    rw [heq] at hs
    have := (List.mem_filter.mp hs).2
    exact List.elem_iff.mp this
  · intro s hs hname
    rw [heq]
    exact List.mem_filter.mpr ⟨hs, List.elem_iff.mpr hname⟩
  · intro name hname
    have : filterSources (some (name :: ts)) srcs
        = srcs.filter (fun s => (name :: ts).contains s.table) := by
      simp [filterSources]
    rw [this, heq]
    apply List.filter_congr
    intro s hs
    have hsne : s.table ≠ name := by
      intro hcontra
      exact hname (hcontra ▸ List.mem_map_of_mem (fun s => s.table) hs)
    simp [List.contains_cons, beq_false_of_ne hsne]
    exact fun hc => absurd hc hsne

/-- Claim C3 witness: the theorem instantiated at a concrete selection
over a two-table configuration. -/
theorem filter_step_intersection_witness :
    (["users"] : List String) ≠ []
    ∧ filterSources (some ["users"]) [usersSpec, ordersSpec]
        = [usersSpec, ordersSpec].filter
            (fun s => (["users"] : List String).contains s.table) :=
  ⟨by decide,
   (filter_step_intersection ["users"] [usersSpec, ordersSpec]
     (by decide)).1⟩

/-- Claim C9: for every input, `main` returns only 0 or 1; an exception
raised by pipeline construction is caught by the top-level handler and
mapped to 1, and no exception escapes (the run outcome is total by
construction). -/
theorem main_exit_binary_catches_all (args : Args) (env : PipelineEnv) :
    ((runMain args env).exit = 0 ∨ (runMain args env).exit = 1)
    ∧ ∀ e, env.constructResult = Except.error e →
        (runMain args env).exit = 1 := by
  refine ⟨runMain_exit_zero_or_one args env, ?_⟩
  intro e he
  simp [runMain, he]

/-- Claim C9 witness: a run whose pipeline construction raises returns
exit code 1. -/
theorem main_exit_binary_catches_all_witness :
    (runMain ⟨false, none⟩ envConstructFail).exit = 1 :=
  (main_exit_binary_catches_all ⟨false, none⟩ envConstructFail).2
    "config error" rfl

/-- Claim C6: whenever the source connection cannot be established
(`connect_to_source_db` returns false, the modelled contract being that
it never raises), the run exits with status 1, produces zero
MigrationResults and zero ValidationResults, invokes no per-table
validation, and `run_migration` on any source list returns false with
zero per-table records (it is never invoked productively). -/
theorem connect_failure_fail_fast (args : Args) (env : PipelineEnv)
    (h : connect_to_source_db env = false) :
    (runMain args env).exit = 1
    ∧ (runMain args env).migResults = []
    ∧ (runMain args env).valResults = []
    ∧ (∀ t, Event.validateCall t ∉ (runMain args env).events)
    ∧ ∀ sources : List DataSourceSpec,
        run_migration env sources = (false, [], [Event.connectSource]) := by
  have hrm : ∀ sources : List DataSourceSpec,
      run_migration env sources = (false, [], [Event.connectSource]) := by
    intro sources
    simp [run_migration, h]
  cases hcr : env.constructResult with
  | error e =>
    refine ⟨?_, ?_, ?_, ?_, hrm⟩ <;> simp [runMain, hcr]
  | ok srcs =>
    by_cases hv : args.validate_only
    · refine ⟨?_, ?_, ?_, ?_, hrm⟩ <;> simp [runMain, hcr, hv, h]
    · have hv2 : args.validate_only = false := by
        simpa using hv
      refine ⟨?_, ?_, ?_, ?_, hrm⟩ <;>
        simp [runMain, hcr, hv2, hrm]

/-- Claim C6 witness: a concrete validate-only run against an
environment whose source connection fails. -/
theorem connect_failure_fail_fast_witness :
    connect_to_source_db envNoConnect = false
    ∧ (runMain ⟨true, none⟩ envNoConnect).exit = 1 :=
  ⟨rfl, (connect_failure_fail_fast ⟨true, none⟩ envNoConnect rfl).1⟩

/-- Characterization of `runMain` when pipeline construction raises. -/
theorem runMain_construct_error (args : Args) (env : PipelineEnv)
    (e : String) (hcr : env.constructResult = Except.error e) :
    runMain args env = ⟨1, [], [], []⟩ := by
  simp [runMain, hcr]

/-- Characterization of `runMain` in validate-only mode when the source
connection fails. -/
theorem runMain_validate_noconnect (args : Args) (env : PipelineEnv)
    (srcs : List DataSourceSpec)
    (hcr : env.constructResult = Except.ok srcs)
    (hv : args.validate_only = true)
    (hc : connect_to_source_db env = false) :
    runMain args env = ⟨1, [Event.connectSource], [], []⟩ := by
  simp [runMain, hcr, hv, hc]

/-- Characterization of `runMain` in validate-only mode when the source
connection is established. -/
theorem runMain_validate_spec (args : Args) (env : PipelineEnv)
    (srcs : List DataSourceSpec)
    (hcr : env.constructResult = Except.ok srcs)
    (hv : args.validate_only = true)
    (hc : connect_to_source_db env = true) :
    runMain args env =
      ⟨if (activeSources args srcs).all
            (fun s =>
              (validate_migration env s.table).validation_passed.getD false)
          then 0 else 1,
       Event.connectSource ::
         (activeSources args srcs).map
           (fun s => Event.validateCall s.table),
       [],
       (activeSources args srcs).map
         (fun s => validate_migration env s.table)⟩ := by
  simp [runMain, activeSources, hcr, hv, hc, all_map_fun]

/-- Characterization of `runMain` in full-migration mode. -/
theorem runMain_full_spec (args : Args) (env : PipelineEnv)
    (srcs : List DataSourceSpec)
    (hcr : env.constructResult = Except.ok srcs)
    (hv : args.validate_only = false) :
    runMain args env =
      ⟨if (run_migration env (activeSources args srcs)).1 then 0 else 1,
       Event.runMigrationCall
         :: (run_migration env (activeSources args srcs)).2.2,
       (run_migration env (activeSources args srcs)).2.1,
       []⟩ := by
  simp [runMain, activeSources, hcr, hv]

/-- Claim C1: the process exit status is 0 iff every active table's
relevant outcome is true — in full-migration mode iff `run_migration`
returned true, in validate-only mode iff the connection was established
and every active table's ValidationResult has a truthy
`validation_passed`; otherwise it is 1 (the exit code is always 0 or 1),
including when the source connection cannot be established. -/
theorem exit_status_iff_outcomes (args : Args) (env : PipelineEnv) :
    ((runMain args env).exit = 0 ∨ (runMain args env).exit = 1)
    ∧ (args.validate_only = true →
        ((runMain args env).exit = 0 ↔
          ∃ srcs, env.constructResult = Except.ok srcs
            ∧ connect_to_source_db env = true
            ∧ (activeSources args srcs).all
                (fun s =>
                  (validate_migration env s.table).validation_passed.getD
                    false) = true))
    ∧ (args.validate_only = false →
        ((runMain args env).exit = 0 ↔
          ∃ srcs, env.constructResult = Except.ok srcs
            ∧ (run_migration env (activeSources args srcs)).1 = true)) := by
  refine ⟨runMain_exit_zero_or_one args env, ?_, ?_⟩
  · intro hv
    cases hcr : env.constructResult with
    | error e =>
      rw [runMain_construct_error args env e hcr]
      constructor
      · intro h0
        simp at h0
      · rintro ⟨srcs0, hok, -⟩
        exact Except.noConfusion hok
    | ok srcs =>
      by_cases hc : connect_to_source_db env = true
      · rw [runMain_validate_spec args env srcs hcr hv hc]
        by_cases hb : (activeSources args srcs).all
            (fun s =>
              (validate_migration env s.table).validation_passed.getD false)
            = true
        · rw [if_pos hb]
          constructor
          · intro h0
            exact ⟨srcs, rfl, hc, hb⟩
          · intro hex
            rfl
        · rw [if_neg hb]
          constructor
          · intro h0
            simp at h0
          · rintro ⟨srcs0, hok, hcon, hall⟩
            have hss : srcs = srcs0 := Except.ok.inj hok
            rw [← hss] at hall
            exact absurd hall hb
      · have hc2 : connect_to_source_db env = false := by
          simpa using hc
        rw [runMain_validate_noconnect args env srcs hcr hv hc2]
        constructor
        · intro h0
          simp at h0
        · rintro ⟨srcs0, hok, hcon, -⟩
          rw [hcon] at hc2
          exact Bool.noConfusion hc2
  · intro hv
    cases hcr : env.constructResult with
    | error e =>
      rw [runMain_construct_error args env e hcr]
      constructor
      · intro h0
        simp at h0
      · rintro ⟨srcs0, hok, -⟩
        exact Except.noConfusion hok
    | ok srcs =>
      rw [runMain_full_spec args env srcs hcr hv]
      by_cases hr : (run_migration env (activeSources args srcs)).1 = true
      · rw [if_pos hr]
        constructor
        · intro h0
          exact ⟨srcs, rfl, hr⟩
        · intro hex
          rfl
      · rw [if_neg hr]
        constructor
        · intro h0
          simp at h0
        · rintro ⟨srcs0, hok, hrun⟩
          have hss : srcs = srcs0 := Except.ok.inj hok
          rw [← hss] at hrun
          exact absurd hrun hr

/-- Claim C1 witness: a concrete full-migration run in a fully healthy
environment exits with status 0. -/
theorem exit_status_iff_outcomes_witness :
    (runMain ⟨false, none⟩ envGood).exit = 0 :=
  ((exit_status_iff_outcomes ⟨false, none⟩ envGood).2.2 rfl).mpr
    ⟨[usersSpec, ordersSpec], rfl, by decide⟩

/-- Claim C2 counterexample: a validate-only run whose source connection
fails returns at the connect gate before the validation loop, invoking
`validate_migration` zero times even though the active data-source list
is nonempty — so the unconditional "validate_migration is invoked for
every table in the active data-source list" is false. -/
theorem validate_only_can_skip_validation :
    envNoConnect.constructResult = Except.ok [usersSpec]
    ∧ activeSources ⟨true, none⟩ [usersSpec] = [usersSpec]
    ∧ Event.validateCall "users"
        ∉ (runMain ⟨true, none⟩ envNoConnect).events
    ∧ (runMain ⟨true, none⟩ envNoConnect).valResults = [] := by
  refine ⟨rfl, rfl, ?_, rfl⟩
  decide

/-- Claim C2 (amended): in a validate-only run, `run_migration` is never
invoked and no load is performed on the target (neither event ever
appears in the trace, nor does any extract or transform); provided the
pipeline is constructed and the source connection established,
`validate_migration` is invoked for every table of the active
data-source list. -/
theorem validate_only_never_migrates (args : Args) (env : PipelineEnv)
    (h : args.validate_only = true) :
    Event.runMigrationCall ∉ (runMain args env).events
    ∧ (∀ t, Event.load t ∉ (runMain args env).events)
    ∧ (∀ t, Event.extract t ∉ (runMain args env).events)
    ∧ ∀ srcs, env.constructResult = Except.ok srcs →
        connect_to_source_db env = true →
        ∀ s ∈ activeSources args srcs,
          Event.validateCall s.table ∈ (runMain args env).events := by
  cases hcr : env.constructResult with
  | error e =>
    rw [runMain_construct_error args env e hcr]
    refine ⟨?_, ?_, ?_, ?_⟩
    · simp
    · intro t
      simp
    · intro t
      simp
    · rintro srcs0 hok
      exact absurd hok (by simp)
  | ok srcs =>
    by_cases hc : connect_to_source_db env = true
    · rw [runMain_validate_spec args env srcs hcr h hc]
      refine ⟨?_, ?_, ?_, ?_⟩
      · simp
      · intro t
        simp
      · intro t
        simp
      · intro srcs0 hok hcon s hs
        have hss : srcs = srcs0 := Except.ok.inj hok
        rw [← hss] at hs
        exact List.mem_cons_of_mem _
          (List.mem_map_of_mem (fun t => Event.validateCall t.table) hs)
    · have hc2 : connect_to_source_db env = false := by
        simpa using hc
      rw [runMain_validate_noconnect args env srcs hcr h hc2]
      refine ⟨?_, ?_, ?_, ?_⟩
      · simp
      · intro t
        simp
      · intro t
        simp
      · intro srcs0 hok hcon
        rw [hcon] at hc2
        exact Bool.noConfusion hc2

/-- Claim C2 witness: in a concrete validate-only run, the active table
`users` is validated while no load and no `run_migration` call appears
in the trace. -/
theorem validate_only_never_migrates_witness :
    Event.runMigrationCall ∉ (runMain ⟨true, none⟩ envGood).events
    ∧ Event.validateCall "users" ∈ (runMain ⟨true, none⟩ envGood).events :=
  ⟨(validate_only_never_migrates ⟨true, none⟩ envGood rfl).1,
   (validate_only_never_migrates ⟨true, none⟩ envGood rfl).2.2.2
     [usersSpec, ordersSpec] rfl rfl usersSpec
     (List.mem_cons_self usersSpec [ordersSpec])⟩

/-- Claim C10: in validate-only mode, a ValidationResult lacking the
validation_passed key counts as a failed validation — it makes the
aggregate success false, the run exits with status 1, and its table is
listed among the failed tables. -/
theorem missing_validation_key_counts_failed (args : Args)
    (env : PipelineEnv) (srcs : List DataSourceSpec) (s : DataSourceSpec)
    (hcr : env.constructResult = Except.ok srcs)
    (hv : args.validate_only = true)
    (hc : connect_to_source_db env = true)
    (hs : s ∈ activeSources args srcs)
    (hmiss : env.validationOutcome s.table = none) :
    (runMain args env).exit = 1
    ∧ (runMain args env).valResults.all
        (fun r => r.validation_passed.getD false) = false
    ∧ s.table ∈ failedTables (runMain args env).valResults := by
  have hr : validate_migration env s.table
      = (⟨s.table, none⟩ : ValidationResult) := by
    simp [validate_migration, hmiss]
  have hnot : ¬ ((activeSources args srcs).all
      (fun t =>
        (validate_migration env t.table).validation_passed.getD false)
      = true) := by
    intro hall
    have h2 := List.all_eq_true.mp hall s hs
    rw [hr] at h2
    simp at h2
  rw [runMain_validate_spec args env srcs hcr hv hc]
  refine ⟨?_, ?_, ?_⟩
  · rw [if_neg hnot]
  · show ((activeSources args srcs).map
        (fun t => validate_migration env t.table)).all
          (fun r => r.validation_passed.getD false) = false
    rw [all_map_fun]
    cases hb : (activeSources args srcs).all
        (fun t =>
          (validate_migration env t.table).validation_passed.getD false)
    · rfl
    · exact absurd hb hnot
  · show s.table ∈ failedTables
        ((activeSources args srcs).map
          (fun t => validate_migration env t.table))
    have hmem : (⟨s.table, none⟩ : ValidationResult)
        ∈ (activeSources args srcs).map
            (fun t => validate_migration env t.table) := by
      rw [← hr]
      exact List.mem_map_of_mem (fun t => validate_migration env t.table) hs
    refine List.mem_map_of_mem (fun r => r.table_name)
      (List.mem_filter.mpr ⟨hmem, ?_⟩)
    rfl

/-- Claim C10 witness: a concrete run in which the `users` validation
dictionary lacks the key exits 1 and lists `users` among the failed
tables. -/
theorem missing_validation_key_counts_failed_witness :
    (runMain ⟨true, none⟩ envMissingKey).exit = 1
    ∧ "users" ∈ failedTables
        (runMain ⟨true, none⟩ envMissingKey).valResults :=
  ⟨(missing_validation_key_counts_failed ⟨true, none⟩ envMissingKey
      [usersSpec, ordersSpec] usersSpec rfl rfl rfl
      (List.mem_cons_self usersSpec [ordersSpec]) (by decide)).1,
   (missing_validation_key_counts_failed ⟨true, none⟩ envMissingKey
      [usersSpec, ordersSpec] usersSpec rfl rfl rfl
      (List.mem_cons_self usersSpec [ordersSpec]) (by decide)).2.2⟩

/-- Claim C4 counterexample: in a full-migration run whose source
connection fails, the active table `users` yields zero MigrationResults
(and zero ValidationResults) by the time `main` returns control, so the
unconditional one-result-per-table claim is false. -/
theorem active_table_yields_no_result :
    envNoConnect.constructResult = Except.ok [usersSpec]
    ∧ (activeSources ⟨false, none⟩ [usersSpec]).map (fun s => s.table)
        = ["users"]
    ∧ (runMain ⟨false, none⟩ envNoConnect).migResults = []
    ∧ (runMain ⟨false, none⟩ envNoConnect).valResults = [] :=
  ⟨rfl, rfl, rfl, rfl⟩

/-- Claim C4 (amended): provided the pipeline constructs and the source
connection is established, every entry of the active data-source list
yields exactly one result of the mode-appropriate kind — the results'
table-name sequence equals the active list's table sequence, so no table
is dropped or reported twice — and no result of the other kind exists. -/
theorem one_result_per_active_table (args : Args) (env : PipelineEnv)
    (srcs : List DataSourceSpec)
    (hcr : env.constructResult = Except.ok srcs)
    (hc : connect_to_source_db env = true) :
    (args.validate_only = true →
      (runMain args env).valResults.map (fun r => r.table_name)
          = (activeSources args srcs).map (fun s => s.table)
      ∧ (runMain args env).migResults = [])
    ∧ (args.validate_only = false →
      (runMain args env).migResults.map (fun r => r.table)
          = (activeSources args srcs).map (fun s => s.table)
      ∧ (runMain args env).valResults = []) := by
  constructor
  · intro hv
    rw [runMain_validate_spec args env srcs hcr hv hc]
    refine ⟨?_, rfl⟩
    show ((activeSources args srcs).map
        (fun t => validate_migration env t.table)).map
          (fun r => r.table_name)
      = (activeSources args srcs).map (fun s => s.table)
    rw [List.map_map]
    rfl
  · intro hv
    rw [runMain_full_spec args env srcs hcr hv]
    refine ⟨?_, rfl⟩
    show ((run_migration env (activeSources args srcs)).2.1).map
        (fun r => r.table)
      = (activeSources args srcs).map (fun s => s.table)
    have hres : (run_migration env (activeSources args srcs)).2.1
        = (activeSources args srcs).map
            (fun s => (migrateTable env s).1) := by
      simp [run_migration, hc]
    rw [hres, List.map_map]
    apply List.map_congr_left
    intro t ht
    exact migrateTable_table env t

/-- Claim C4 witness: the amended theorem instantiated on a healthy
two-table full-migration run. -/
theorem one_result_per_active_table_witness :
    (runMain ⟨false, none⟩ envGood).migResults.map (fun r => r.table)
      = (activeSources ⟨false, none⟩ [usersSpec, ordersSpec]).map
          (fun s => s.table) :=
  ((one_result_per_active_table ⟨false, none⟩ envGood
      [usersSpec, ordersSpec] rfl rfl).2 rfl).1

/-- An error raised in any of the three per-table stages is converted
into a `failed` migration record carrying error detail. -/
theorem migrateTable_failed_of_stage_error (env : PipelineEnv)
    (s : DataSourceSpec)
    (hfail : (∃ e, env.extractResult s.table = Except.error e)
      ∨ (∃ e, env.transformResult s.table = Except.error e)
      ∨ (∃ e, env.loadResult s.table = Except.error e)) :
    (migrateTable env s).1.status = MigStatus.failed
    ∧ (migrateTable env s).1.error_detail ≠ none := by
  unfold migrateTable
  cases hex : env.extractResult s.table with
  | error e => exact ⟨rfl, by simp⟩
  | ok u =>
    cases htr : env.transformResult s.table with
    | error e => exact ⟨rfl, by simp⟩
    | ok u2 =>
      cases hld : env.loadResult s.table with
      | error e => exact ⟨rfl, by simp⟩
      | ok n =>
        rcases hfail with ⟨e, he⟩ | ⟨e, he⟩ | ⟨e, he⟩
        · rw [hex] at he
          exact Except.noConfusion he
        · rw [htr] at he
          exact Except.noConfusion he
        · rw [hld] at he
          exact Except.noConfusion he

/-- When the configured table names are pairwise distinct, the per-table
results list holds exactly one record whose table is a given member's
table. -/
theorem results_filter_single (env : PipelineEnv) :
    ∀ (sources : List DataSourceSpec) (s : DataSourceSpec),
      s ∈ sources →
      (sources.map (fun t => t.table)).Nodup →
      (sources.map (fun t => (migrateTable env t).1)).filter
          (fun r => r.table == s.table)
        = [(migrateTable env s).1] := by
  intro sources
  induction sources with
  | nil =>
    intro s hs hnd
    exact absurd hs (List.not_mem_nil s)
  | cons a rest ih =>
    intro s hs hnd
    have hnd2 : a.table ∉ rest.map (fun t => t.table)
        ∧ (rest.map (fun t => t.table)).Nodup := by
      rw [List.map_cons, List.nodup_cons] at hnd
      exact hnd
    rcases List.mem_cons.mp hs with heq | hmem
    · subst heq
      have hpred : (((migrateTable env s).1).table == s.table) = true := by
        rw [migrateTable_table]
        simp
      rw [List.map_cons, List.filter_cons, if_pos hpred]
      congr 1
      apply List.filter_eq_nil_iff.mpr
      intro r hr
      rcases List.mem_map.mp hr with ⟨t, ht, hrt⟩
      rw [← hrt, migrateTable_table]
      have hne : t.table ≠ s.table := by
        intro hcontra
        exact hnd2.1 (hcontra ▸ List.mem_map_of_mem (fun t => t.table) ht)
      simp [hne]
    · have hcond : ¬ ((((migrateTable env a).1).table == s.table) = true) := by
        rw [migrateTable_table]
        have hne : a.table ≠ s.table := by
          intro hcontra
          exact hnd2.1
            (hcontra ▸ List.mem_map_of_mem (fun t => t.table) hmem)
        simp [hne]
      rw [List.map_cons, List.filter_cons, if_neg hcond]
      exact ih s hmem hnd2.2

/-- Claim C5: in full-migration mode with the source connected, a
table whose extraction, transform, or load raises has the error caught
and converted into exactly one `failed` MigrationResult (with error
detail) for that table, and the results list is still one record per
active table, each computed from that table's own outcomes alone —
remaining tables are processed normally. -/
theorem per_table_failure_isolated (env : PipelineEnv)
    (sources : List DataSourceSpec) (s : DataSourceSpec)
    (hs : s ∈ sources)
    (hnd : (sources.map (fun t => t.table)).Nodup)
    (hc : connect_to_source_db env = true)
    (hfail : (∃ e, env.extractResult s.table = Except.error e)
      ∨ (∃ e, env.transformResult s.table = Except.error e)
      ∨ (∃ e, env.loadResult s.table = Except.error e)) :
    (migrateTable env s).1.status = MigStatus.failed
    ∧ (migrateTable env s).1.error_detail ≠ none
    ∧ (run_migration env sources).2.1
        = sources.map (fun t => (migrateTable env t).1)
    ∧ (run_migration env sources).2.1.filter
        (fun r => r.table == s.table) = [(migrateTable env s).1] := by
  have hres : (run_migration env sources).2.1
      = sources.map (fun t => (migrateTable env t).1) := by
    simp [run_migration, hc]
  obtain ⟨h1, h2⟩ := migrateTable_failed_of_stage_error env s hfail
  refine ⟨h1, h2, hres, ?_⟩
  rw [hres]
  exact results_filter_single env sources s hs hnd

/-- Claim C5 witness: with extraction of `users` raising, the
two-table run records exactly one failed result for `users`. -/
theorem per_table_failure_isolated_witness :
    (migrateTable envExtractFail usersSpec).1.status = MigStatus.failed
    ∧ (run_migration envExtractFail [usersSpec, ordersSpec]).2.1.filter
        (fun r => r.table == usersSpec.table)
      = [(migrateTable envExtractFail usersSpec).1] :=
  ⟨(per_table_failure_isolated envExtractFail [usersSpec, ordersSpec]
      usersSpec (List.mem_cons_self usersSpec [ordersSpec]) (by decide)
      rfl (Or.inl ⟨"boom", rfl⟩)).1,
   (per_table_failure_isolated envExtractFail [usersSpec, ordersSpec]
      usersSpec (List.mem_cons_self usersSpec [ordersSpec]) (by decide)
      rfl (Or.inl ⟨"boom", rfl⟩)).2.2.2⟩

/-- Claim C8 counterexample: a validate-only run whose table filter
matches nothing in the configuration still exits with status 1 when the
source connection fails, refuting the claim's unconditional exit
status 0. -/
theorem no_match_validate_only_exit_one :
    (∀ s ∈ [usersSpec], s.table ∉ (["ghost"] : List String))
    ∧ envNoConnect.constructResult = Except.ok [usersSpec]
    ∧ activeSources ⟨true, some ["ghost"]⟩ [usersSpec] = []
    ∧ (runMain ⟨true, some ["ghost"]⟩ envNoConnect).exit = 1 := by
  refine ⟨?_, rfl, ?_, rfl⟩
  · decide
  · decide

/-- Claim C8 (amended): if the provided table-name filter matches no
table in the configuration, the active data-source list becomes empty,
and in validate-only mode — provided the source connection is
established — the run exits with status 0 having validated nothing (the
aggregate over zero results is vacuously true). -/
theorem no_match_filter_vacuous_success (args : Args) (env : PipelineEnv)
    (srcs : List DataSourceSpec) (ts : List String)
    (hcr : env.constructResult = Except.ok srcs)
    (hv : args.validate_only = true)
    (ht : args.tables = some ts)
    (hts : ts ≠ [])
    (hnone : ∀ s ∈ srcs, s.table ∉ ts)
    (hc : connect_to_source_db env = true) :
    activeSources args srcs = []
    ∧ (runMain args env).exit = 0
    ∧ (runMain args env).valResults = [] := by
  have hactive : activeSources args srcs = [] := by
    rw [activeSources, ht]
    have hne : ts.isEmpty = false := by
      cases ts with
      | nil => exact absurd rfl hts
      | cons a t => rfl
    simp only [filterSources, hne, Bool.false_eq_true, if_false]
    apply List.filter_eq_nil_iff.mpr
    intro s hsmem hcontra
    exact hnone s hsmem (List.elem_iff.mp hcontra)
  rw [runMain_validate_spec args env srcs hcr hv hc, hactive]
  exact ⟨rfl, rfl, rfl⟩

/-- Claim C8 witness: the amended theorem instantiated on a healthy
environment with an unmatched table selection. -/
theorem no_match_filter_vacuous_success_witness :
    (runMain ⟨true, some ["ghost"]⟩ envGood).exit = 0 :=
  (no_match_filter_vacuous_success ⟨true, some ["ghost"]⟩ envGood
    [usersSpec, ordersSpec] ["ghost"] rfl rfl rfl (by decide)
    (by decide) rfl).2.1
